import Mathlib

/-
Verification development for the Opportunity-Agent repository
(two source files: stream.py, the ZScaler/Greenhouse scraper, and
app.py, the Microsoft careers scraper).

The Python functions are shallowly embedded as pure Lean functions.
DOM interaction is modelled by passing in the data the driver would
observe: an element is a record of the texts and attributes the code
reads from it; a page is a list of such elements plus the flags the
code queries (visibility of a next button, and so on).  Python string
membership (the in operator) is modelled by pyIn, str.strip by pyStrip
and str.lower by pyLower; Selenium calls that can raise are modelled
with Option/Except following the try/except structure of the source.
-/

set_option maxRecDepth 4000

/-- Drop leading whitespace characters from a character list. -/
def dropWs : List Char → List Char
  | [] => []
  | c :: t => if c.isWhitespace then dropWs t else c :: t

/-- Python str.strip(): remove leading and trailing whitespace. -/
def pyStrip (s : String) : String :=
  String.mk ((dropWs ((dropWs s.toList).reverse)).reverse)

/-- Python str.lower(): lower-case every character. -/
def pyLower (s : String) : String :=
  String.mk (s.toList.map Char.toLower)

/-- Boolean contiguous-sublist test on character lists: subListB n h
decides whether n occurs as a contiguous run inside h. -/
def subListB (n : List Char) : List Char → Bool
  | [] => n.isEmpty
  | c :: t => (n.isPrefixOf (c :: t)) || subListB n t

/-- Python string membership: pyIn needle hay models needle in hay. -/
def pyIn (needle hay : String) : Bool :=
  subListB needle.toList hay.toList

/- ===================== stream.py : ZScaler scraper ===================== -/

/-- One record of extract_job_listings_zscaler (stream.py lines 133-138):
the dict with keys Title, Location, Department, Link. -/
structure ZJob where
  Title : String
  Location : String
  Department : String
  Link : String
  deriving DecidableEq

/-- One job card element of the ZScaler listing page, holding exactly the
data extract_job_listings_zscaler reads from it (stream.py lines 106-127):
aElem is the first anchor descendant, as the pair (its text, the value of
get_attribute on href); none means find_element raised, which skips the
card via the per-card except.  locationText / departmentText are the texts
of the elements of class location / department; none means the lookup
raised and the sentinel branch runs. -/
structure ZCard where
  aElem : Option (String × Option String)
  locationText : Option String
  departmentText : Option String
  deriving DecidableEq

/-- Location extraction of stream.py lines 112-120: the stripped text is
kept only when non-empty, shorter than 50 characters and not containing
footer in lower case; otherwise the string Not specified. -/
def zLocation (c : ZCard) : String :=
  match c.locationText with
  | none => "Not specified"
  | some lt =>
    let l := pyStrip lt
    if l ≠ "" && l.length < 50 && !(pyIn "footer" (pyLower l)) then l
    else "Not specified"

/-- Department extraction of stream.py lines 122-127. -/
def zDepartment (c : ZCard) : String :=
  match c.departmentText with
  | none => "Not specified"
  | some dt => pyStrip dt

/-- The body of the per-card loop of extract_job_listings_zscaler
(stream.py lines 106-145): reads the anchor (a raise skips the card),
strips its text to title, reads the href to link, then, when
title and title.strip() and link and link.strip() are all truthy, appends
the record unless some record already in the accumulator has both the
same Title and the same Link (exact string comparison, lines 129-138). -/
def extractStep (acc : List ZJob) (c : ZCard) : List ZJob :=
  match c.aElem with
  | none => acc
  | some (atext, hrefOpt) =>
    let title := pyStrip atext
    match hrefOpt with
    | none => acc
    | some link =>
      if title ≠ "" && pyStrip title ≠ "" && link ≠ "" && pyStrip link ≠ "" then
        if acc.any (fun j => j.Title == title && j.Link == link) then acc
        else acc ++ [⟨title, zLocation c, zDepartment c, link⟩]
      else acc

/-- extract_job_listings_zscaler (stream.py lines 92-150): folds the
per-card step over the cards of the current page, starting from an empty
accumulator created afresh on every call. -/
def extract_job_listings_zscaler (cards : List ZCard) : List ZJob :=
  cards.foldl extractStep []

/-- One listing page as seen by handle_pagination: its cards, and whether
a displayed next button without disabled in its class is present
(stream.py lines 174-183). -/
structure ZPage where
  cards : List ZCard
  hasNext : Bool
  deriving DecidableEq

/-- handle_pagination (stream.py lines 153-204): while page <= max_pages,
extract the current page with extract_job_listings_zscaler and extend
all_jobs with the result (no cross-page duplicate check), then stop if no
next button is found, else click through to the next page. -/
def handle_pagination : Nat → List ZPage → List ZJob
  | 0, _ => []
  | _, [] => []
  | fuel + 1, p :: rest =>
    let pageJobs := extract_job_listings_zscaler p.cards
    if p.hasNext && !rest.isEmpty then pageJobs ++ handle_pagination fuel rest
    else pageJobs

/-- A ZScaler card whose anchor has the given text and href and whose
optional fields are absent. -/
def mkZCard (t l : String) : ZCard := ⟨some (t, some l), none, none⟩

/-- First page of the 2-page scenario of the spec: 10 cards, among them
the duplicate (SWE II, /job/1). -/
def zPage1 : ZPage :=
  ⟨[mkZCard "SWE II" "/job/1", mkZCard "T2" "/job/2", mkZCard "T3" "/job/3",
    mkZCard "T4" "/job/4", mkZCard "T5" "/job/5", mkZCard "T6" "/job/6",
    mkZCard "T7" "/job/7", mkZCard "T8" "/job/8", mkZCard "T9" "/job/9",
    mkZCard "T10" "/job/10"], true⟩

/-- Second page of the scenario: 4 cards, repeating (SWE II, /job/1). -/
def zPage2 : ZPage :=
  ⟨[mkZCard "SWE II" "/job/1", mkZCard "U2" "/job/11", mkZCard "U3" "/job/12",
    mkZCard "U4" "/job/13"], false⟩

/-- C1 counterexample: on the 2-page scenario (10 cards then 4 cards with
one (title, url) pair shared across the two pages, max_pages = 3) the code
returns 14 records, not the 13 the claim states: extract_job_listings_zscaler
deduplicates only inside a single page, and handle_pagination extends
all_jobs across pages without any duplicate check. -/
theorem c1_counterexample :
    (handle_pagination 3 [zPage1, zPage2]).length = 14 ∧
    ¬ (handle_pagination 3 [zPage1, zPage2]).length = 13 := by
  decide

/-- Absence of a (Title, Link) duplicate between two records. -/
def zDistinctKey (a b : ZJob) : Prop := ¬ (a.Title = b.Title ∧ a.Link = b.Link)

theorem extractStep_pairwise (acc : List ZJob) (c : ZCard)
    (h : acc.Pairwise zDistinctKey) :
    (extractStep acc c).Pairwise zDistinctKey := by
  unfold extractStep
  cases hA : c.aElem with
  | none => exact h
  | some p =>
    obtain ⟨atext, hrefOpt⟩ := p
    cases hrefOpt with
    | none => exact h
    | some link =>
      dsimp only
      split
      · split
        · exact h
        · rename_i hdup
          rw [List.pairwise_append]
          refine ⟨h, List.pairwise_singleton _ _, ?_⟩
          intro a ha b hb
          have hb' : b = ⟨pyStrip atext, zLocation c, zDepartment c, link⟩ := by
            simpa using hb
          subst hb'
          have hfa : ¬ (a.Title == pyStrip atext && a.Link == link) = true := by
            intro hcontra
            exact hdup (List.any_eq_true.mpr ⟨a, ha, hcontra⟩)
          intro hab
          apply hfa
          simp only [Bool.and_eq_true, beq_iff_eq]
          exact hab
      · exact h

theorem extract_fold_pairwise (cards : List ZCard) (acc : List ZJob)
    (h : acc.Pairwise zDistinctKey) :
    (cards.foldl extractStep acc).Pairwise zDistinctKey := by
  induction cards generalizing acc with
  | nil => simpa using h
  | cons c cs ih => exact ih _ (extractStep_pairwise _ _ h)

/-- C1 amended: uniqueness of the (Title, Link) pair holds only within a
single call of extract_job_listings_zscaler, i.e. within one page; a pair
appearing on two different pages is kept once per page, so the 2-page
scenario (10 cards then 4 cards, one shared pair) yields 14 records with
the shared (SWE II, /job/1) record present twice. -/
theorem c1_amended :
    (∀ cards : List ZCard,
      (extract_job_listings_zscaler cards).Pairwise zDistinctKey) ∧
    ((handle_pagination 3 [zPage1, zPage2]).filter
      (fun j => j.Title == "SWE II" && j.Link == "/job/1")).length = 2 := by
  constructor
  · intro cards
    exact extract_fold_pairwise cards [] (List.Pairwise.nil)
  · decide

/-- C10: duplicate suppression in extract_job_listings_zscaler compares
Title and Link by exact, case-sensitive string equality: a record is
appended exactly when no earlier record of the same extraction pass has
both an equal Title and an equal Link (stream.py lines 129-138), so two
cards whose titles differ only in letter case are both kept while two
identical cards yield a single record. -/
theorem c10_theorem :
    (∀ (acc : List ZJob) (c : ZCard) (r : ZJob),
      extractStep acc c = acc ++ [r] →
      ∀ j ∈ acc, ¬ (j.Title = r.Title ∧ j.Link = r.Link)) ∧
    (∀ (acc : List ZJob) (c : ZCard) (atext link : String),
      c.aElem = some (atext, some link) →
      pyStrip atext ≠ "" → pyStrip (pyStrip atext) ≠ "" →
      link ≠ "" → pyStrip link ≠ "" →
      (∀ j ∈ acc, ¬ (j.Title = pyStrip atext ∧ j.Link = link)) →
      extractStep acc c =
        acc ++ [⟨pyStrip atext, zLocation c, zDepartment c, link⟩]) ∧
    (extract_job_listings_zscaler
      [mkZCard "Engineer" "/a", mkZCard "ENGINEER" "/a"]).length = 2 ∧
    (extract_job_listings_zscaler
      [mkZCard "Engineer" "/a", mkZCard "Engineer" "/a"]).length = 1 := by
  refine ⟨?_, ?_, by decide, by decide⟩
  · intro acc c r heq j hj hkey
    unfold extractStep at heq
    rcases hA : c.aElem with _ | ⟨atext, _ | link⟩ <;> rw [hA] at heq <;> dsimp only at heq
    · have hlen := congrArg List.length heq
      simp at hlen
    · have hlen := congrArg List.length heq
      simp at hlen
    · split at heq
      · split at heq
        · have hlen := congrArg List.length heq
          simp at hlen
        · rename_i hdup
          have h2 : List.drop acc.length
              (acc ++ [(⟨pyStrip atext, zLocation c, zDepartment c, link⟩ : ZJob)]) =
              List.drop acc.length (acc ++ [r]) := by rw [heq]
          rw [List.drop_left, List.drop_left] at h2
          have hr : (⟨pyStrip atext, zLocation c, zDepartment c, link⟩ : ZJob) = r := by
            simpa using h2
          apply hdup
          apply List.any_eq_true.mpr
          refine ⟨j, hj, ?_⟩
          rw [Bool.and_eq_true, beq_iff_eq, beq_iff_eq]
          rw [← hr] at hkey
          exact hkey
      · have hlen := congrArg List.length heq
        simp at hlen
  · intro acc c atext link hA h1 h2 h3 h4 hnodup
    have hdup : (acc.any fun j => j.Title == pyStrip atext && j.Link == link) = false := by
      by_contra hne
      have hany : (acc.any fun j => j.Title == pyStrip atext && j.Link == link) = true := by
        cases hb : acc.any fun j => j.Title == pyStrip atext && j.Link == link
        · exact absurd hb hne
        · rfl
      obtain ⟨j, hj, hf⟩ := List.any_eq_true.mp hany
      rw [Bool.and_eq_true, beq_iff_eq, beq_iff_eq] at hf
      exact hnodup j hj hf
    unfold extractStep
    rw [hA]
    dsimp only
    rw [if_pos (by simp [h1, h2, h3, h4]), hdup]
    simp

/-- C10 witness: a valid card appended to an empty accumulator. -/
theorem c10_witness :
    extractStep [] (mkZCard "Engineer" "/a") =
      [] ++ [⟨pyStrip "Engineer", zLocation (mkZCard "Engineer" "/a"),
        zDepartment (mkZCard "Engineer" "/a"), "/a"⟩] :=
  c10_theorem.2.1 [] (mkZCard "Engineer" "/a") "Engineer" "/a" rfl (by decide) (by decide)
    (by decide) (by decide) (fun j hj => absurd hj (List.not_mem_nil j))

/-- The keyword handling of scrape_zscaler_jobs (stream.py lines 286-314).
The parameter search_box_found records whether the native search input
with id search_keywords was found and used (lines 286-301); the jobs
collected by scrolling and pagination are passed in as all_jobs.  The
post-collection filter of lines 309-313 runs whenever the keyword is
non-empty and the collected list is non-empty, regardless of which path
was taken: it keeps exactly the jobs whose lower-cased Title contains the
lower-cased keyword as a substring. -/
def scrape_zscaler_jobs (search_box_found : Bool) (search_keyword : String)
    (all_jobs : List ZJob) : List ZJob :=
  if search_keyword ≠ "" ∧ all_jobs ≠ [] then
    all_jobs.filter fun j => pyIn (pyLower search_keyword) (pyLower j.Title)
  else all_jobs

/-- C7: for every non-empty keyword, every record returned by
scrape_zscaler_jobs has the keyword as a case-insensitive substring of
its Title, and this holds for both values of search_box_found, since the
case-insensitive substring filter of lines 309-313 is applied on both
paths. -/
theorem c7_theorem (b : Bool) (kw : String) (jobs : List ZJob) (hkw : kw ≠ "") :
    ∀ j ∈ scrape_zscaler_jobs b kw jobs, pyIn (pyLower kw) (pyLower j.Title) = true := by
  intro j hj
  unfold scrape_zscaler_jobs at hj
  split at hj
  · exact (List.mem_filter.mp hj).2
  · rename_i hcond
    push_neg at hcond
    have hnil : jobs = [] := hcond hkw
    subst hnil
    exact absurd hj (List.not_mem_nil j)

/-- C7 witness: keyword x, one matching job. -/
theorem c7_witness : pyIn (pyLower "x") (pyLower "x1") = true :=
  c7_theorem true "x" [⟨"x1", "L", "D", "/u"⟩] (by decide)
    ⟨"x1", "L", "D", "/u"⟩ (by decide)

/-- The scroll loop of scroll_to_load_all (stream.py lines 33-89),
abstracted over the readings the driver would return: heights n and
counts n are the page height and the number of elements of class opening
observed by the n-th in-loop read (0-indexed).  State: lastH and lastC
are last_height and last_job_count, stall is consecutive_no_change,
reads counts the reads performed so far, and fuel is the remaining
iterations allowed by max_scrolls.  The function returns the total
number of reads performed: when both readings equal the previous state
the stall counter is incremented and the loop breaks at 3; any change
resets it to 0. -/
def scrollAux (heights counts : Nat → Nat) :
    Nat → Nat → Nat → Nat → Nat → Nat
  | 0, _, _, _, reads => reads
  | fuel + 1, lastH, lastC, stall, reads =>
    let h := heights reads
    let c := counts reads
    if h = lastH ∧ c = lastC then
      if stall + 1 ≥ 3 then reads + 1
      else scrollAux heights counts fuel h c (stall + 1) (reads + 1)
    else scrollAux heights counts fuel h c 0 (reads + 1)

/-- scroll_to_load_all (stream.py lines 33-89): last_height starts as the
height read before the loop (initHeight), last_job_count starts at 0, the
stall counter at 0, and at most maxScrolls iterations run. -/
def scroll_to_load_all (heights counts : Nat → Nat)
    (initHeight maxScrolls : Nat) : Nat :=
  scrollAux heights counts maxScrolls initHeight 0 0 0

/-- Heights of the spec scenario: 100 then 200 forever. -/
def scnHeights : Nat → Nat := fun n => if n = 0 then 100 else 200

/-- Job counts of the spec scenario: 5 then 8 forever. -/
def scnCounts : Nat → Nat := fun n => if n = 0 then 5 else 8

/-- C3 counterexample: on the reading sequence heights [100,200,200,200,...]
with job counts [5,8,8,8,...] (initial pre-loop height 100, default
max_scrolls 20) the loop performs 5 reads, not 4: the 2nd read is a change
relative to the 1st, so the stall counter first reaches 3 at the 5th read. -/
theorem c3_counterexample :
    scroll_to_load_all scnHeights scnCounts 100 20 = 5 ∧
    ¬ scroll_to_load_all scnHeights scnCounts 100 20 = 4 := by
  decide

theorem scrollAux_stable (heights counts : Nat → Nat) (lastH lastC : Nat) :
    ∀ (fuel stall reads : Nat), stall < 3 → 3 - stall ≤ fuel →
    (∀ j, reads ≤ j → heights j = lastH ∧ counts j = lastC) →
    scrollAux heights counts fuel lastH lastC stall reads = reads + (3 - stall) := by
  intro fuel
  induction fuel with
  | zero =>
    intro stall reads h3 hfuel _
    omega
  | succ f ih =>
    intro stall reads h3 hfuel hstab
    have hh := (hstab reads (Nat.le_refl _)).1
    have hc := (hstab reads (Nat.le_refl _)).2
    unfold scrollAux
    dsimp only
    rw [if_pos ⟨hh, hc⟩]
    by_cases hs : stall + 1 ≥ 3
    · rw [if_pos hs]
      omega
    · rw [if_neg hs]
      rw [hh, hc]
      have := ih (stall + 1) (reads + 1) (by omega) (by omega)
        (fun j hj => hstab j (by omega))
      rw [this]
      omega

theorem scrollAux_change_phase (heights counts : Nat → Nat) (k : Nat)
    (hstab : ∀ j, k ≤ j → heights j = heights k ∧ counts j = counts k)
    (hch : ∀ j, 0 < j → j ≤ k →
      ¬ (heights j = heights (j - 1) ∧ counts j = counts (j - 1))) :
    ∀ (fuel reads lastH lastC stall : Nat), reads ≤ k →
    (k - reads) + 4 ≤ fuel →
    ¬ (heights reads = lastH ∧ counts reads = lastC) →
    scrollAux heights counts fuel lastH lastC stall reads = k + 4 := by
  intro fuel
  induction fuel with
  | zero =>
    intro reads lastH lastC stall hrk hfuel _
    omega
  | succ f ih =>
    intro reads lastH lastC stall hrk hfuel hchg
    unfold scrollAux
    dsimp only
    rw [if_neg hchg]
    rcases Nat.lt_or_ge reads k with hlt | hge
    · exact ih (reads + 1) (heights reads) (counts reads) 0 (by omega) (by omega)
        (by simpa using hch (reads + 1) (by omega) (by omega))
    · have hrk' : reads = k := by omega
      subst hrk'
      have := scrollAux_stable heights counts (heights reads) (counts reads)
        f 0 (reads + 1) (by omega) (by omega)
        (fun j hj => hstab j (by omega))
      rw [this]

/-- C3 amended: in the scroll loop, an iteration whose newly read height
and job count both equal the previous comparison state increments the
stall counter, any change resets it to 0, and the loop halts when the
counter reaches 3 or max_scrolls iterations have run.  If the readings
change at every read up to and including read k (0-indexed, the first
read being compared against the pre-loop height and job count 0) and are
constant from read k on, the loop performs exactly k+4 reads (three
no-change reads are needed after the last change), provided
max_scrolls ≥ k+4.  In particular the scenario heights [100,200,200,...]
with counts [5,8,8,...] stops after the 5th read, not the 4th. -/
theorem c3_amended (heights counts : Nat → Nat) (init maxScrolls k : Nat)
    (hstab : ∀ j, k ≤ j → heights j = heights k ∧ counts j = counts k)
    (hch0 : ¬ (heights 0 = init ∧ counts 0 = 0))
    (hch : ∀ j, 0 < j → j ≤ k →
      ¬ (heights j = heights (j - 1) ∧ counts j = counts (j - 1)))
    (hfuel : k + 4 ≤ maxScrolls) :
    scroll_to_load_all heights counts init maxScrolls = k + 4 := by
  unfold scroll_to_load_all
  exact scrollAux_change_phase heights counts k hstab hch maxScrolls 0 init 0 0
    (Nat.zero_le _) (by omega) hch0

/-- C3 witness: the amended theorem applied to the spec scenario, whose
last change is at read 1 (0-indexed), giving 1+4 reads. -/
theorem c3_witness : scroll_to_load_all scnHeights scnCounts 100 20 = 1 + 4 :=
  c3_amended scnHeights scnCounts 100 20 1
    (fun j hj => by
      constructor
      · show (if j = 0 then 100 else 200) = (if (1 : Nat) = 0 then 100 else 200)
        rw [if_neg (by omega), if_neg (by omega)]
      · show (if j = 0 then 5 else 8) = (if (1 : Nat) = 0 then 5 else 8)
        rw [if_neg (by omega), if_neg (by omega)])
    (by decide)
    (fun j h1 h2 => by
      have hj : j = 1 := by omega
      subst hj
      decide)
    (by decide)

/-- A sibling element as read by get_section_text (stream.py lines 342-364):
its tag name, its text, the text of its first strong descendant (none when
find_element on strong raises), and the value of get_attribute on class
(the className property, always a string). -/
structure DomElem where
  tag : String
  text : String
  strongText : Option String
  className : String
  deriving DecidableEq

/-- The stop test of stream.py lines 350-354: the sibling is a p element
holding a strong whose stripped, lower-cased text contains qualifications
or what. -/
def isQualHeading (e : DomElem) : Bool :=
  pyLower e.tag == "p" &&
    (match e.strongText with
     | some s =>
       pyIn "qualifications" (pyLower (pyStrip s)) ||
         pyIn "what" (pyLower (pyStrip s))
     | none => false)

/-- The stop test of stream.py line 359: a div whose class contains
content-nav. -/
def isNavBlock (e : DomElem) : Bool :=
  pyLower e.tag == "div" && pyIn "content-nav" e.className

/-- The sibling walk of get_section_text (stream.py lines 342-364):
starting from the siblings that follow the heading's parent block, gather
each sibling's stripped text until the list ends, a qualification heading
is reached, or a content-nav div is reached. -/
def get_section_text_pieces : List DomElem → List String
  | [] => []
  | e :: rest =>
    if isQualHeading e then []
    else if isNavBlock e then []
    else pyStrip e.text :: get_section_text_pieces rest

/-- get_section_text (stream.py lines 328-367): the gathered texts are
joined by newlines, omitting empty fragments (line 367). -/
def get_section_text (siblings : List DomElem) : String :=
  String.intercalate "\n" ((get_section_text_pieces siblings).filter fun t => t ≠ "")

/-- A paragraph sibling with no strong child. -/
def pElem (t : String) : DomElem := ⟨"p", t, none, ""⟩

/-- The Preferred Qualifications heading of the spec scenario: a p block
whose strong text is Preferred Qualifications. -/
def prefHeadElem : DomElem :=
  ⟨"p", "Preferred Qualifications", some "Preferred Qualifications", ""⟩

theorem get_section_text_pieces_stop (e : DomElem) (he : isQualHeading e = true) :
    ∀ (pre post : List DomElem),
      get_section_text_pieces (pre ++ e :: post) = get_section_text_pieces (pre ++ [e]) := by
  intro pre
  induction pre with
  | nil =>
    intro post
    simp only [List.nil_append]
    unfold get_section_text_pieces
    rw [if_pos he, if_pos he]
  | cons d ds ih =>
    intro post
    simp only [List.cons_append]
    unfold get_section_text_pieces
    split
    · rfl
    · split
      · rfl
      · rw [ih post]

/-- C6: on the sibling sequence following the Minimum Qualifications
heading's parent in the spec scenario (p1, p2, the Preferred
Qualifications heading, p3), get_section_text returns exactly p1 newline
p2 and never consumes anything past a qualification-marked heading: for
any siblings list, everything after the first stopping heading leaves the
result unchanged. -/
theorem c6_theorem :
    get_section_text [pElem "p1", pElem "p2", prefHeadElem, pElem "p3"] = "p1\np2" ∧
    (∀ (pre post : List DomElem) (e : DomElem), isQualHeading e = true →
      get_section_text (pre ++ e :: post) = get_section_text (pre ++ [e])) := by
  constructor
  · decide
  · intro pre post e he
    unfold get_section_text
    rw [get_section_text_pieces_stop e he pre post]

/-- C6 witness: the stop property applied to a concrete page. -/
theorem c6_witness :
    get_section_text ([pElem "p0"] ++ prefHeadElem :: [pElem "p3"]) =
      get_section_text ([pElem "p0"] ++ [prefHeadElem]) :=
  c6_theorem.2 [pElem "p0"] [pElem "p3"] prefHeadElem (by decide)

/-- One strong element of a detail page as consumed by the classification
loop of extract_job_descriptions (stream.py lines 410-428): its text as
read at line 418, and the text get_section_text would return when invoked
on this element. -/
structure StrongHeading where
  text : String
  sectionText : String
  deriving DecidableEq

/-- The minimum-qualifications marker test of stream.py line 421. -/
def isMinHeading (h : StrongHeading) : Bool :=
  pyIn "what we\x27re looking for" (pyLower (pyStrip h.text)) ||
    pyIn "minimum qualifications" (pyLower (pyStrip h.text))

/-- The preferred-qualifications marker test of stream.py line 426,
reached only when the minimum test failed (elif). -/
def isPrefHeading (h : StrongHeading) : Bool :=
  pyIn "what will make you stand out" (pyLower (pyStrip h.text)) ||
    pyIn "preferred qualifications" (pyLower (pyStrip h.text))

/-- The body of the for loop over strong elements (stream.py lines
417-428): a minimum match overwrites min_qual_text, otherwise a preferred
match overwrites pref_qual_text. -/
def classifyStep (acc : String × String) (h : StrongHeading) : String × String :=
  if isMinHeading h then (h.sectionText, acc.2)
  else if isPrefHeading h then (acc.1, h.sectionText)
  else acc

/-- The classification loop of extract_job_descriptions for one detail
page (stream.py lines 412-428): both placeholders start empty and every
strong element is visited in order with classifyStep. -/
def classify_strong_headings (hs : List StrongHeading) : String × String :=
  hs.foldl classifyStep ("", "")

/-- First minimum-qualifications heading of the counterexample page. -/
def minH1 : StrongHeading := ⟨"Minimum Qualifications", "S1"⟩

/-- Second minimum-qualifications heading of the counterexample page. -/
def minH2 : StrongHeading := ⟨"Minimum Qualifications:", "S2"⟩

/-- C5 counterexample: a detail page with two headings matching the
minimum-qualifications vocabulary ends up with the Section Extractor
output of the SECOND one, not the first: the loop has no break, so a
later match overwrites the field. -/
theorem c5_counterexample :
    isMinHeading minH1 = true ∧ isMinHeading minH2 = true ∧
    (classify_strong_headings [minH1, minH2]).1 = "S2" ∧
    ¬ (classify_strong_headings [minH1, minH2]).1 = "S1" := by
  decide

theorem foldl_lastWrite (q : StrongHeading → Bool) (f : StrongHeading → String) :
    ∀ (hs : List StrongHeading) (a : String),
      hs.foldl (fun x h => if q h then f h else x) a =
        ((hs.filter q).getLast?).elim a f := by
  intro hs
  induction hs using List.reverseRecOn with
  | nil => intro a; rfl
  | append_singleton l x ih =>
    intro a
    rw [List.foldl_append, List.filter_append]
    by_cases hq : q x
    · rw [List.foldl_cons, List.foldl_nil, if_pos hq]
      have : List.filter q [x] = [x] := by simp [hq]
      rw [this, List.getLast?_concat]
      rfl
    · rw [List.foldl_cons, List.foldl_nil, if_neg hq]
      have : List.filter q [x] = [] := by simp [hq]
      rw [this, List.append_nil, ih a]

theorem classify_foldl_split (hs : List StrongHeading) (a b : String) :
    hs.foldl classifyStep (a, b) =
      (hs.foldl (fun x h => if isMinHeading h then h.sectionText else x) a,
       hs.foldl (fun x h => if !isMinHeading h && isPrefHeading h then h.sectionText else x) b) := by
  induction hs generalizing a b with
  | nil => rfl
  | cons h t ih =>
    rw [List.foldl_cons, List.foldl_cons, List.foldl_cons]
    have hstep : classifyStep (a, b) h =
        ((if isMinHeading h then h.sectionText else a),
         (if !isMinHeading h && isPrefHeading h then h.sectionText else b)) := by
      unfold classifyStep
      by_cases hm : isMinHeading h
      · simp [hm]
      · by_cases hp : isPrefHeading h <;> simp [hm, hp]
    rw [hstep, ih]

/-- C5 amended: for a detail page with several headings matching the same
marker vocabulary, each qualification field holds the Section Extractor
output of the LAST matching heading of that kind (a minimum match is
classified by the if branch, so the preferred field tracks the last
heading matching the preferred vocabulary but not the minimum one); a
kind with no match leaves the empty default. -/
theorem c5_amended (hs : List StrongHeading) :
    classify_strong_headings hs =
      (((hs.filter isMinHeading).getLast?).elim "" StrongHeading.sectionText,
       ((hs.filter fun h => !isMinHeading h && isPrefHeading h).getLast?).elim ""
         StrongHeading.sectionText) := by
  unfold classify_strong_headings
  rw [classify_foldl_split]
  rw [foldl_lastWrite isMinHeading StrongHeading.sectionText hs ""]
  rw [foldl_lastWrite (fun h => !isMinHeading h && isPrefHeading h)
    StrongHeading.sectionText hs ""]

/-- One row of the dataframe processed by extract_job_descriptions
(stream.py lines 370-445): the listing fields the loop reads plus the two
qualification columns it writes. -/
structure DescRow where
  Title : String
  Link : String
  MinimumQualifications : String
  PreferredQualifications : String
  deriving DecidableEq

/-- Writing both qualification columns of one row (stream.py lines
430-432). -/
def enrichRow (r : DescRow) (mp : String × String) : DescRow :=
  ⟨r.Title, r.Link, mp.1, mp.2⟩

/-- The for loop of extract_job_descriptions (stream.py lines 400-434),
abstracted over the outcome of processing one detail page: detail i is
the pair (min_qual_text, pref_qual_text) produced for the row at index i
by navigating to its link and classifying its strong elements, or an
error when any step of that iteration raises.  The whole loop sits in a
single try block whose except is OUTSIDE the loop (lines 396-438), so a
raise at index i ends the loop; the dataframe built so far is still
returned by the finally/return path. -/
def descLoop (detail : Nat → Except Unit (String × String)) :
    Nat → Nat → List DescRow → List DescRow
  | _, _, [] => []
  | _, 0, rows => rows
  | i, fuel + 1, r :: rest =>
    match detail i with
    | Except.error _ => r :: rest
    | Except.ok mp => enrichRow r mp :: descLoop detail (i + 1) fuel rest

/-- extract_job_descriptions (stream.py lines 370-445): max_jobs is capped
by the number of rows (lines 374-377) and the loop starts at index 0. -/
def extract_job_descriptions (rows : List DescRow) (maxJobs : Nat)
    (detail : Nat → Except Unit (String × String)) : List DescRow :=
  descLoop detail 0 (min maxJobs rows.length) rows

/-- Detail outcomes of the counterexample run: the page of record 0
raises, every later page extracts successfully. -/
def descDetail0 : Nat → Except Unit (String × String) :=
  fun i => if i = 0 then Except.error () else Except.ok ("a", "b")

/-- The three rows of the counterexample run. -/
def descRows0 : List DescRow :=
  [⟨"J0", "/0", "", ""⟩, ⟨"J1", "/1", "", ""⟩, ⟨"J2", "/2", "", ""⟩]

/-- C4 counterexample: enrichment of record 0 raises; records 1 and 2
would enrich successfully, yet the returned rows are completely
unchanged, because the exception handler wraps the whole loop rather
than one iteration: a single bad detail page aborts the remaining
batch. -/
theorem c4_counterexample :
    descDetail0 1 = Except.ok ("a", "b") ∧
    extract_job_descriptions descRows0 3 descDetail0 = descRows0 ∧
    ((extract_job_descriptions descRows0 3 descDetail0).map
      DescRow.MinimumQualifications) = ["", "", ""] := by
  refine ⟨rfl, by decide, by decide⟩

theorem descLoop_length (detail : Nat → Except Unit (String × String)) :
    ∀ (rows : List DescRow) (i fuel : Nat),
      (descLoop detail i fuel rows).length = rows.length := by
  intro rows
  induction rows with
  | nil => intro i fuel; cases fuel <;> rfl
  | cons r rest ih =>
    intro i fuel
    cases fuel with
    | zero => rfl
    | succ f =>
      unfold descLoop
      cases detail i with
      | error e => rfl
      | ok mp => simp [ih]

theorem descLoop_tail_unchanged (detail : Nat → Except Unit (String × String)) :
    ∀ (d : Nat) (rows : List DescRow) (fuel start : Nat),
      detail (start + d) = Except.error () →
      (∀ k, k < d → ∃ mp, detail (start + k) = Except.ok mp) →
      ∀ j, d ≤ j → (descLoop detail start fuel rows).get? j = rows.get? j := by
  intro d
  induction d with
  | zero =>
    intro rows fuel start herr _ j _
    cases rows with
    | nil => cases fuel <;> rfl
    | cons r rest =>
      cases fuel with
      | zero => rfl
      | succ f =>
        unfold descLoop
        rw [Nat.add_zero] at herr
        rw [herr]
  | succ d ih =>
    intro rows fuel start herr hok j hj
    cases rows with
    | nil => cases fuel <;> rfl
    | cons r rest =>
      cases fuel with
      | zero => rfl
      | succ f =>
        unfold descLoop
        obtain ⟨mp, hmp⟩ := hok 0 (Nat.succ_pos d)
        rw [Nat.add_zero] at hmp
        rw [hmp]
        cases j with
        | zero => omega
        | succ j' =>
          simp only [List.get?_cons_succ]
          apply ih rest f (start + 1)
          · have he : start + 1 + d = start + (d + 1) := by omega
            rw [he]
            exact herr
          · intro k hk
            have hkk := hok (k + 1) (by omega)
            have he : start + 1 + k = start + (k + 1) := by omega
            rw [he]
            exact hkk
          · omega

theorem descLoop_enriched (detail : Nat → Except Unit (String × String)) :
    ∀ (j : Nat) (rows : List DescRow) (fuel start : Nat) (mp : String × String),
      j < fuel →
      (∀ k, k ≤ j → ∃ mp2, detail (start + k) = Except.ok mp2) →
      detail (start + j) = Except.ok mp →
      (descLoop detail start fuel rows).get? j =
        (rows.get? j).map (fun r => enrichRow r mp) := by
  intro j
  induction j with
  | zero =>
    intro rows fuel start mp hfuel _ hj
    cases rows with
    | nil => cases fuel <;> rfl
    | cons r rest =>
      cases fuel with
      | zero => omega
      | succ f =>
        unfold descLoop
        rw [Nat.add_zero] at hj
        rw [hj]
        rfl
  | succ j ih =>
    intro rows fuel start mp hfuel hok hj
    cases rows with
    | nil => cases fuel <;> rfl
    | cons r rest =>
      cases fuel with
      | zero => omega
      | succ f =>
        unfold descLoop
        obtain ⟨mp0, hmp0⟩ := hok 0 (Nat.zero_le _)
        rw [Nat.add_zero] at hmp0
        rw [hmp0]
        simp only [List.get?_cons_succ]
        apply ih rest f (start + 1) mp (by omega)
        · intro k hk
          have hkk := hok (k + 1) (by omega)
          have he : start + 1 + k = start + (k + 1) := by omega
          rw [he]
          exact hkk
        · have he : start + 1 + j = start + (j + 1) := by omega
          rw [he]
          exact hj

/-- C4 amended: an exception while enriching the record at position i is
caught at the batch level, not per record: the function still returns,
the returned list keeps its length, every record at a position at or
after i is returned with its qualification fields untouched (no later
record is navigated to), and the records before i carry the
qualifications their detail pages produced. -/
theorem c4_amended (rows : List DescRow) (maxJobs : Nat)
    (detail : Nat → Except Unit (String × String)) (i : Nat)
    (hfail : detail i = Except.error ())
    (hok : ∀ k, k < i → ∃ mp, detail k = Except.ok mp) :
    (extract_job_descriptions rows maxJobs detail).length = rows.length ∧
    (∀ j, i ≤ j →
      (extract_job_descriptions rows maxJobs detail).get? j = rows.get? j) ∧
    (∀ j mp, j < i → j < min maxJobs rows.length → detail j = Except.ok mp →
      (extract_job_descriptions rows maxJobs detail).get? j =
        (rows.get? j).map (fun r => enrichRow r mp)) := by
  refine ⟨descLoop_length detail rows 0 _, ?_, ?_⟩
  · intro j hj
    apply descLoop_tail_unchanged detail i rows _ 0
    · rw [Nat.zero_add]
      exact hfail
    · intro k hk
      rw [Nat.zero_add]
      exact hok k hk
    · exact hj
  · intro j mp hj hcap hdet
    apply descLoop_enriched detail j rows _ 0 mp hcap
    · intro k hk
      rw [Nat.zero_add]
      exact hok k (by omega)
    · rw [Nat.zero_add]
      exact hdet

/-- C4 witness: the amended theorem applied to the concrete failing run. -/
theorem c4_witness :
    (extract_job_descriptions descRows0 3 descDetail0).get? 1 = descRows0.get? 1 :=
  (c4_amended descRows0 3 descDetail0 0 rfl
    (fun k hk => absurd hk (Nat.not_lt_zero k))).2.1 1 (Nat.zero_le 1)

/- ===================== app.py : Microsoft scraper ===================== -/

/-- One job card of the Microsoft results page as read by
extract_job_cards (app.py lines 198-278).  titleTexts, locationTexts and
dateTexts give, per selector of the respective selector list, the text of
the matched element (none when find_element raised).  anchorHref is the
outcome of finding the first anchor and reading its href (app.py lines
259-262): ok h means the anchor was found and get_attribute returned h
(possibly none); error means the lookup raised and the fallback runs.
dataJobId is the outcome of get_attribute on data-job-id (lines 264-270):
ok none models the attribute being absent (get_attribute returns None
without raising), and only error reaches the Unknown URL assignment. -/
structure MsCard where
  titleTexts : List (Option String)
  locationTexts : List (Option String)
  dateTexts : List (Option String)
  anchorHref : Except Unit (Option String)
  dataJobId : Except Unit (Option String)

/-- One record of extract_job_cards (app.py lines 272-278).  The url value
is an Option because the Python variable job_url can remain None. -/
structure MsJob where
  title : String
  location : String
  days_ago : String
  company : String
  url : Option String
  deriving DecidableEq

/-- The per-field selector loop of extract_job_cards (app.py lines
201-256): take the first selector whose element is found and whose
stripped text is non-empty; the kept value is the stripped text. -/
def firstNonEmpty : List (Option String) → Option String
  | [] => none
  | none :: rest => firstNonEmpty rest
  | some s :: rest => if pyStrip s ≠ "" then some (pyStrip s) else firstNonEmpty rest

/-- The url extraction of extract_job_cards (app.py lines 258-270):
job_url starts as None; a found anchor yields its href attribute value
as-is (even when that is None); when the anchor lookup raises, a truthy
data-job-id synthesizes the canonical url, a returned None or empty
string leaves job_url as None, and only a raise while reading the
attribute assigns the sentinel Unknown URL. -/
def msUrl (c : MsCard) : Option String :=
  match c.anchorHref with
  | Except.ok h => h
  | Except.error _ =>
    match c.dataJobId with
    | Except.error _ => some "Unknown URL"
    | Except.ok none => none
    | Except.ok (some jid) =>
      if jid ≠ "" then some ("https://careers.microsoft.com/us/en/job/" ++ jid)
      else none

/-- The per-card body of extract_job_cards (app.py lines 198-278):
each of title, location and posting date falls back to its sentinel when
no selector produced non-empty text; the company is the constant
Microsoft; the url follows msUrl. -/
def extract_card (c : MsCard) : MsJob :=
  ⟨(firstNonEmpty c.titleTexts).getD "Unknown Title",
   (firstNonEmpty c.locationTexts).getD "Unknown Location",
   (firstNonEmpty c.dateTexts).getD "Unknown Date",
   "Microsoft",
   msUrl c⟩

/-- extract_job_cards (app.py lines 177-287) over the cards found on the
current page: every card yields a record (per-card raises are absorbed by
the except/continue of lines 280-282, which the total model never
triggers). -/
def extract_job_cards (cards : List MsCard) : List MsJob :=
  cards.map extract_card

/-- C2 failing input: a card with a recognizable title but no anchor
element and no data-job-id attribute.  The anchor lookup raises, the
get_attribute call on data-job-id returns None WITHOUT raising, the
truthiness test fails, and job_url remains None: the record's url field
is None, not the sentinel Unknown URL. -/
def msBadCard : MsCard :=
  ⟨[some "SWE II"], [none], [], Except.error (), Except.ok none⟩

/-- C2: the sentinel fallback fails for the url field.  On msBadCard the
extractor returns the title and the location/date sentinels, but url is
None rather than a non-empty string: the Unknown URL branch of app.py
line 270 is reachable only when get_attribute itself raises, while the
ordinary missing-attribute path (get_attribute returning None) leaves
job_url as Python None, contradicting the claim that every field of every
record is a non-empty string. -/
theorem c2_theorem :
    extract_card msBadCard =
      ⟨"SWE II", "Unknown Location", "Unknown Date", "Microsoft", none⟩ ∧
    (extract_card msBadCard).url = none := by
  refine ⟨by decide, by decide⟩

/-- The environment of navigate_to_search_results (app.py lines 70-139):
whether the keyword input appears within its 20s wait, whether the search
button becomes clickable within its 10s wait, and whether a recognizable
card container appears within the final 15s wait.  The location-filter
block (lines 91-115) only prints on failure and cannot change the
outcome. -/
structure MsEnv where
  keywordInputAppears : Bool
  searchButtonClickable : Bool
  resultsAppear : Bool
  deriving DecidableEq

/-- navigate_to_search_results (app.py lines 70-139): a raise of either
bounded wait before the results check is caught by the outer except and
returns False; the final 15s wait for a card container returns True on
success and False on TimeoutException. -/
def navigate_to_search_results (env : MsEnv) : Bool :=
  if !env.keywordInputAppears then false
  else if !env.searchButtonClickable then false
  else env.resultsAppear

/-- One Microsoft results page for the pagination loop of scrape_jobs:
its cards, and whether go_to_next_page succeeds on it. -/
structure MsPage where
  cards : List MsCard
  hasNext : Bool

/-- The page loop of scrape_jobs (app.py lines 371-396): the first page is
always extracted, then while current_page < max_pages the loop advances
only when go_to_next_page returns True.  The second component counts the
calls of extract_job_cards. -/
def scrapeLoop : Nat → List MsPage → List MsJob × Nat
  | 0, _ => ([], 0)
  | _ + 1, [] => ([], 0)
  | fuel + 1, p :: rest =>
    if p.hasNext && !rest.isEmpty then
      let r := scrapeLoop fuel rest
      (extract_job_cards p.cards ++ r.1, r.2 + 1)
    else (extract_job_cards p.cards, 1)

/-- scrape_jobs (app.py lines 349-407): when navigate_to_search_results
reports failure the function returns the empty accumulated list at once
(lines 357-362) and extract_job_cards is never called; otherwise the page
loop runs. -/
def scrape_jobs (env : MsEnv) (pages : List MsPage) (maxPages : Nat) :
    List MsJob × Nat :=
  if navigate_to_search_results env then scrapeLoop maxPages pages
  else ([], 0)

/-- C8: when the bounded 15s wait for the first recognizable card
container times out, navigate_to_search_results returns False, and
scrape_jobs returns the empty accumulated list without attempting any
card extraction (the extraction-call counter is 0) and without raising
(the model is a total function). -/
theorem c8_theorem (env : MsEnv) (pages : List MsPage) (maxPages : Nat)
    (h1 : env.keywordInputAppears = true)
    (h2 : env.searchButtonClickable = true)
    (h3 : env.resultsAppear = false) :
    navigate_to_search_results env = false ∧
    scrape_jobs env pages maxPages = ([], 0) := by
  have hn : navigate_to_search_results env = false := by
    unfold navigate_to_search_results
    rw [h1, h2, h3]
    rfl
  refine ⟨hn, ?_⟩
  unfold scrape_jobs
  rw [hn]
  rfl

/-- C8 witness: a concrete run whose card-container wait times out. -/
theorem c8_witness :
    navigate_to_search_results ⟨true, true, false⟩ = false ∧
    scrape_jobs ⟨true, true, false⟩ [] 5 = ([], 0) :=
  c8_theorem ⟨true, true, false⟩ [] 5 rfl rfl rfl

/-- A candidate next-page control of go_to_next_page (app.py line 308),
holding the three attribute reads of the disabled check: get_attribute
on disabled (None when the control is not disabled), on class (the
className property, always a string), and on aria-disabled (None when
the attribute is absent). -/
structure NextControl where
  disabledAttr : Option String
  classAttr : String
  ariaDisabled : Option String
  deriving DecidableEq

/-- The chained or of app.py line 308 evaluated with Python semantics:
disabled = A or ("disabled" in class) or ("disabled" in aria-disabled).
A truthy disabled attribute short-circuits; otherwise the class test
runs; only if that is False is the aria-disabled membership evaluated,
and evaluating "disabled" in None raises a TypeError, modelled as
Except.error. -/
def disabledCheck (c : NextControl) : Except Unit Bool :=
  match c.disabledAttr with
  | some s =>
    if s ≠ "" then Except.ok true
    else if pyIn "disabled" c.classAttr then Except.ok true
    else match c.ariaDisabled with
      | none => Except.error ()
      | some a => Except.ok (pyIn "disabled" a)
  | none =>
    if pyIn "disabled" c.classAttr then Except.ok true
    else match c.ariaDisabled with
      | none => Except.error ()
      | some a => Except.ok (pyIn "disabled" a)

/-- Outcome of one selector of go_to_next_page (app.py lines 293-301):
either the bounded wait finds no clickable control, or it finds one and
clicking it would (or would not) load new page content. -/
inductive SelectorOutcome where
  | absent : SelectorOutcome
  | found : NextControl → Bool → SelectorOutcome

/-- go_to_next_page (app.py lines 289-347) over its selector list.
Returns the Python return value and the list of controls actually
clicked.  A selector with no clickable control falls through to the next
selector; a raise of the disabled check (the TypeError of line 308) is
absorbed by the catch-all except of lines 337-339 and also falls
through; a control whose check is truthy makes the function return False
at line 311 without clicking; an enabled control is clicked, and the
function returns whether the new page content appeared (lines 318-331). -/
def go_to_next_page : List SelectorOutcome → Bool × List NextControl
  | [] => (false, [])
  | SelectorOutcome.absent :: rest => go_to_next_page rest
  | SelectorOutcome.found c loads :: rest =>
    match disabledCheck c with
    | Except.error _ => go_to_next_page rest
    | Except.ok true => (false, [])
    | Except.ok false => (loads, [c])

/-- A genuinely disabled control: disabled attribute set, no
aria-disabled, class not containing disabled. -/
def disabledControl : NextControl := ⟨some "true", "pagination-next", none⟩

/-- A clickable control bearing aria-disabled = false. -/
def enabledControl : NextControl := ⟨none, "next-link", some "false"⟩

/-- C9 counterexample: disabledControl lacks an aria-disabled attribute
and its class string does not contain disabled, yet the disabled check
does NOT raise a TypeError: the truthy disabled attribute short-circuits
the or-chain, and go_to_next_page returns False immediately instead of
skipping to the next selector, never reaching the clickable
enabledControl behind it. -/
theorem c9_counterexample :
    disabledControl.ariaDisabled = none ∧
    pyIn "disabled" disabledControl.classAttr = false ∧
    disabledCheck disabledControl = Except.ok true ∧
    go_to_next_page [SelectorOutcome.found disabledControl true,
      SelectorOutcome.found enabledControl true] = (false, []) := by
  refine ⟨rfl, by decide, rfl, rfl⟩

theorem disabledCheck_ok_false_aria (c : NextControl)
    (h : disabledCheck c = Except.ok false) :
    ∃ a, c.ariaDisabled = some a ∧ pyIn "disabled" a = false := by
  obtain ⟨da, ca, aa⟩ := c
  unfold disabledCheck at h
  cases da with
  | some s =>
    dsimp only at h
    by_cases hs : s ≠ ""
    · rw [if_pos hs] at h
      exact absurd (Except.ok.inj h) (by decide)
    · rw [if_neg hs] at h
      by_cases hc : pyIn "disabled" ca = true
      · rw [if_pos hc] at h
        exact absurd (Except.ok.inj h) (by decide)
      · rw [if_neg hc] at h
        cases aa with
        | none => exact Except.noConfusion h
        | some a =>
          dsimp only at h
          exact ⟨a, rfl, Except.ok.inj h⟩
  | none =>
    dsimp only at h
    by_cases hc : pyIn "disabled" ca = true
    · rw [if_pos hc] at h
      exact absurd (Except.ok.inj h) (by decide)
    · rw [if_neg hc] at h
      cases aa with
      | none => exact Except.noConfusion h
      | some a =>
        dsimp only at h
        exact ⟨a, rfl, Except.ok.inj h⟩

/-- C9 amended: the TypeError arises for a candidate control that lacks
the disabled attribute AND lacks aria-disabled AND whose class does not
contain disabled (a control whose disabled attribute is set short-circuits
the or-chain and makes the function return False instead).  The TypeError
is absorbed and the selector is skipped without clicking; a click (a True
return) can only happen through a control carrying an aria-disabled
attribute whose value does not contain disabled; and when every selector
is exhausted by absence or TypeError the function returns False with
nothing clicked. -/
theorem c9_amended :
    (∀ c : NextControl, c.disabledAttr = none → c.ariaDisabled = none →
      pyIn "disabled" c.classAttr = false → disabledCheck c = Except.error ()) ∧
    (∀ (c : NextControl) (loads : Bool) (rest : List SelectorOutcome),
      disabledCheck c = Except.error () →
      go_to_next_page (SelectorOutcome.found c loads :: rest) = go_to_next_page rest) ∧
    (∀ outs : List SelectorOutcome, (go_to_next_page outs).1 = true →
      ∃ c ∈ (go_to_next_page outs).2, ∃ a, c.ariaDisabled = some a ∧
        pyIn "disabled" a = false) ∧
    (∀ outs : List SelectorOutcome,
      (∀ o ∈ outs, o = SelectorOutcome.absent ∨
        ∃ c loads, o = SelectorOutcome.found c loads ∧
          disabledCheck c = Except.error ()) →
      go_to_next_page outs = (false, [])) := by
  refine ⟨?_, ?_, ?_, ?_⟩
  · intro c h1 h2 h3
    unfold disabledCheck
    rw [h1]
    dsimp only
    rw [if_neg (by rw [h3]; exact Bool.false_ne_true), h2]
  · intro c loads rest h
    have hstep : go_to_next_page (SelectorOutcome.found c loads :: rest) =
        (match disabledCheck c with
        | Except.error _ => go_to_next_page rest
        | Except.ok true => (false, [])
        | Except.ok false => (loads, [c])) := rfl
    rw [hstep, h]
  · intro outs
    induction outs with
    | nil => intro h; cases h
    | cons o rest ih =>
      cases o with
      | absent =>
        intro h
        exact ih h
      | found c loads =>
        intro h
        have hstep : go_to_next_page (SelectorOutcome.found c loads :: rest) =
            (match disabledCheck c with
            | Except.error _ => go_to_next_page rest
            | Except.ok true => (false, [])
            | Except.ok false => (loads, [c])) := rfl
        rw [hstep] at h ⊢
        cases hd : disabledCheck c with
        | error e =>
          rw [hd] at h
          exact ih h
        | ok b =>
          cases b with
          | false =>
            obtain ⟨a, ha, hpa⟩ := disabledCheck_ok_false_aria c hd
            exact ⟨c, List.mem_singleton_self c, a, ha, hpa⟩
          | true =>
            rw [hd] at h
            exact Bool.noConfusion h
  · intro outs
    induction outs with
    | nil => intro _; rfl
    | cons o rest ih =>
      intro h
      cases o with
      | absent =>
        exact ih (fun o ho => h o (List.mem_cons_of_mem _ ho))
      | found c loads =>
        have hc := h (SelectorOutcome.found c loads) (List.mem_cons_self _ _)
        rcases hc with habs | ⟨c2, loads2, heq, herr⟩
        · exact SelectorOutcome.noConfusion habs
        · cases heq
          have hstep : go_to_next_page (SelectorOutcome.found c loads :: rest) =
              (match disabledCheck c with
              | Except.error _ => go_to_next_page rest
              | Except.ok true => (false, [])
              | Except.ok false => (loads, [c])) := rfl
          rw [hstep, herr]
          exact ih (fun o ho => h o (List.mem_cons_of_mem _ ho))

/-- C9 witness: the amended TypeError condition on a concrete control. -/
theorem c9_witness : disabledCheck ⟨none, "next-page-btn", none⟩ = Except.error () :=
  c9_amended.1 ⟨none, "next-page-btn", none⟩ rfl rfl (by decide)

/-- C1 witness: the within-pass uniqueness invariant on a concrete page. -/
theorem c1_witness :
    (extract_job_listings_zscaler [mkZCard "W" "/w"]).Pairwise zDistinctKey :=
  c1_amended.1 [mkZCard "W" "/w"]

/-- C5 witness: the last-match characterization on a one-heading page. -/
theorem c5_witness : classify_strong_headings [minH1] = ("S1", "") :=
  c5_amended [minH1]
